import Mathlib

/-!
Verification of the core algorithms of `snipbook.py`: region extraction
(`find_contiguous_rectangles`), tolerance autocropping (`crop`), image melding
(`combine_two` / `resize_and_center`) and page layout (`merge`).

Raster images are embedded as row-major lists of RGBA pixels with natural
number channel samples; the NumPy/PIL operations used by the source are
translated to explicit list operations, and the floating-point millimetre
arithmetic of `merge` is embedded over the rationals.
-/

namespace Snipbook

/-- One RGBA pixel: four 8-bit channel samples (embedded as naturals). -/
structure Pixel where
  r : Nat
  g : Nat
  b : Nat
  a : Nat
deriving DecidableEq, Repr

/-- Fully transparent fill used by `resize_and_center` (`(0, 0, 0, 0)`). -/
def transparentPixel : Pixel := ⟨0, 0, 0, 0⟩

/-- A raster image: rows of pixels, row-major, top row first. -/
abbrev Grid := List (List Pixel)

/-- Width as PIL reports it (length of a row; 0 for an empty image). -/
def gridWidth (img : Grid) : Nat := (img.headD []).length

/-- Height as PIL reports it (number of rows). -/
def gridHeight (img : Grid) : Nat := img.length

/-- The grid is a well-formed `w × h` raster: `h` rows, each of length `w`. -/
def WF (img : Grid) (w h : Nat) : Prop :=
  img.length = h ∧ ∀ row ∈ img, row.length = w

instance (img : Grid) (w h : Nat) : Decidable (WF img w h) := by
  unfold WF; infer_instance

/-- Pixel access with the transparent pixel as out-of-range default. -/
def getPx (img : Grid) (y x : Nat) : Pixel :=
  (img.getD y []).getD x transparentPixel

/-- Melding method (`method` argument of `combine_two`): `min` or `max`. -/
inductive Method where
  | min : Method
  | max : Method
deriving DecidableEq, Repr

/-- Per-channel combination of two pixels: `np.minimum` / `np.maximum`
applied at one position, every channel (alpha included) independently. -/
def combinePix : Method → Pixel → Pixel → Pixel
  | .min, p, q => ⟨Nat.min p.r q.r, Nat.min p.g q.g, Nat.min p.b q.b, Nat.min p.a q.a⟩
  | .max, p, q => ⟨Nat.max p.r q.r, Nat.max p.g q.g, Nat.max p.b q.b, Nat.max p.a q.a⟩

/-- Overwrite one canvas row with an image row starting at column `offX`
(the column part of PIL `Image.paste`, clipped at the canvas border). -/
def pasteRow : List Pixel → List Pixel → Nat → List Pixel
  | [], _, _ => []
  | p :: rest, irow, offX + 1 => p :: pasteRow rest irow offX
  | p :: rest, [], 0 => p :: rest
  | _ :: rest, q :: qrest, 0 => q :: pasteRow rest qrest 0

/-- Overwrite a rectangular block of the canvas with `img`, top-left corner at
`(offX, offY)`: PIL `Image.paste(img, (offX, offY))` on list-of-rows grids. -/
def pasteRows : Grid → Grid → Nat → Nat → Grid
  | [], _, _, _ => []
  | row :: rest, img, offX, offY + 1 => row :: pasteRows rest img offX offY
  | row :: rest, [], _, 0 => row :: rest
  | row :: rest, irow :: irest, offX, 0 => pasteRow row irow offX :: pasteRows rest irest offX 0

/-- A `w × h` canvas of fully transparent pixels
(`Image.new("RGBA", target_size, (0, 0, 0, 0))`). -/
def blank (w h : Nat) : Grid :=
  List.replicate h (List.replicate w transparentPixel)

/-- Source `resize_and_center`: if the image already has the target
size return it unchanged, otherwise paste it centered (offset
`(target - size) // 2` per axis) onto a fully transparent canvas. -/
def resize_and_center (img : Grid) (tw th : Nat) : Grid :=
  if (gridWidth img, gridHeight img) = (tw, th) then img
  else pasteRows (blank tw th) img ((tw - gridWidth img) / 2) ((th - gridHeight img) / 2)

/-- Source `combine_two`: pad both images to the element-wise maximum
of their sizes with `resize_and_center`, then combine pixel-by-pixel with
`np.minimum` or `np.maximum`. -/
def combine_two (img1 img2 : Grid) (method : Method) : Grid :=
  let tw := Nat.max (gridWidth img1) (gridWidth img2)
  let th := Nat.max (gridHeight img1) (gridHeight img2)
  List.zipWith (List.zipWith (combinePix method))
    (resize_and_center img1 tw th) (resize_and_center img2 tw th)

/-- Absolute per-channel difference computed in signed arithmetic
(the source casts to `int16` before subtracting to avoid unsigned wrap). -/
def chanDiff (x y : Nat) : Nat := ((x : Int) - (y : Int)).natAbs

/-- The autocrop background mask at one pixel: each of the first three
channels is within tolerance of the reference color.  The source compares
`abs(pixel - color) <= (tolerance / 100) * 255`; over the rationals this is
exactly `diff * 100 ≤ tolerance * 255`. -/
def bgPix (ref : Nat × Nat × Nat) (tol : Nat) (p : Pixel) : Bool :=
  chanDiff p.r ref.1 * 100 ≤ tol * 255 &&
  chanDiff p.g ref.2.1 * 100 ≤ tol * 255 &&
  chanDiff p.b ref.2.2 * 100 ≤ tol * 255

/-- Row-major coordinates `(row, col)` of the non-background pixels of one
row, starting at row index `r`, column index `c` (`np.argwhere(~mask)`). -/
def nonBgRow (ref : Nat × Nat × Nat) (tol : Nat) (r : Nat) :
    List Pixel → Nat → List (Nat × Nat)
  | [], _ => []
  | p :: rest, c =>
      (if bgPix ref tol p then [] else [(r, c)]) ++ nonBgRow ref tol r rest (c + 1)

/-- Row-major coordinates of all non-background pixels of the grid
(`np.argwhere(~mask)` flattened in C order). -/
def nonBgCoords (ref : Nat × Nat × Nat) (tol : Nat) : Grid → Nat → List (Nat × Nat)
  | [], _ => []
  | row :: rest, r => nonBgRow ref tol r row 0 ++ nonBgCoords ref tol rest (r + 1)

/-- The autocrop branch of `crop`: build the within-tolerance mask, take the
coordinates of the pixels outside it, and if any exist crop to their bounding
box (per-axis min, and per-axis max plus one, exclusive); if none exist the
sub-grid is returned unchanged (`if coords.size:` fails). -/
def autocrop (g : Grid) (ref : Nat × Nat × Nat) (tol : Nat) : Grid :=
  match nonBgCoords ref tol g 0 with
  | [] => g
  | c0 :: rest =>
      let top := rest.foldl (fun a p => Nat.min a p.1) c0.1
      let left := rest.foldl (fun a p => Nat.min a p.2) c0.2
      let bottom := rest.foldl (fun a p => Nat.max a p.1) c0.1 + 1
      let right := rest.foldl (fun a p => Nat.max a p.2) c0.2 + 1
      ((g.drop top).take (bottom - top)).map (fun row => (row.drop left).take (right - left))

/-- A boolean mask over the grid (`true` = candidate region cell). -/
abbrev Mask := List (List Bool)

/-- Mask lookup, `false` outside the mask. -/
def getCell (m : Mask) (r c : Nat) : Bool := (m.getD r []).getD c false

/-- Mask width (length of the longest row). -/
def maskWidth (m : Mask) : Nat := (m.map List.length).foldr Nat.max 0

/-- Mask height (number of rows). -/
def maskHeight (m : Mask) : Nat := m.length

/-- A grid of optional component labels (`none` on false cells). -/
abbrev LGrid := List (List (Option Nat))

/-- Label lookup, `none` outside the grid. -/
def getLab (L : LGrid) (r c : Nat) : Option Nat := (L.getD r []).getD c none

/-- Initial labels: each true cell gets its row-major index. -/
def initLabels (m : Mask) : LGrid :=
  (List.range (maskHeight m)).map fun r =>
    (List.range (maskWidth m)).map fun c =>
      if getCell m r c then some (r * maskWidth m + c) else none

/-- Minimum of two optional labels (`none` = no label). -/
def optMin : Option Nat → Option Nat → Option Nat
  | none, y => y
  | x, none => x
  | some u, some v => some (Nat.min u v)

/-- One propagation round: every true cell takes the least label among itself
and its true 4-neighbors.  (At the border, `r - 1` / `c - 1` saturate to the
cell itself, which is a no-op under `optMin`; out-of-range lookups are
`none`.) -/
def stepLabels (m : Mask) (L : LGrid) : LGrid :=
  (List.range (maskHeight m)).map fun r =>
    (List.range (maskWidth m)).map fun c =>
      if getCell m r c then
        optMin (getLab L r c)
          (optMin (getLab L (r - 1) c)
            (optMin (getLab L (r + 1) c)
              (optMin (getLab L r (c - 1)) (getLab L r (c + 1)))))
      else none

/-- Iterated propagation. -/
def iterLabels (m : Mask) : Nat → LGrid → LGrid
  | 0, L => L
  | n + 1, L => iterLabels m n (stepLabels m L)

/-- Fixpoint labels: `width * height` rounds bound every in-component path. -/
def finalLabels (m : Mask) : LGrid :=
  iterLabels m (maskWidth m * maskHeight m) (initLabels m)

/-- The distinct component labels of a label grid in first-occurrence
(row-major) order, i.e. the order in which `scipy.ndimage.label` numbers the
components. -/
def componentLabels (L : LGrid) : List Nat :=
  L.foldl
    (fun acc row => row.foldl
      (fun acc o => match o with
        | some v => if v ∈ acc then acc else acc ++ [v]
        | none => acc) acc) []

/-- A rectangle as the source builds it:
`[cols.min(), rows.min(), cols.max(), rows.max()]`. -/
structure Rect where
  left : Nat
  top : Nat
  right : Nat
  bottom : Nat
deriving DecidableEq, Repr

/-- Row-major list of the cells of a `W × H` label grid carrying label `v`
(`np.where(labeled_array == i)`). -/
def cellsWithLabel (L : LGrid) (W H v : Nat) : List (Nat × Nat) :=
  (List.range H).foldr (fun r acc =>
    ((List.range W).filterMap fun c =>
      if getLab L r c = some v then some (r, c) else none) ++ acc) []

/-- Bounding values of a component:
`[cols.min(), rows.min(), cols.max(), rows.max()]` — note: no `+ 1`. -/
def rectOfCells : List (Nat × Nat) → Rect
  | [] => ⟨0, 0, 0, 0⟩
  | c0 :: rest =>
      rest.foldl
        (fun a p => ⟨Nat.min a.left p.2, Nat.min a.top p.1,
          Nat.max a.right p.2, Nat.max a.bottom p.1⟩)
        ⟨c0.2, c0.1, c0.2, c0.1⟩

/-- One rectangle per component, in component-discovery order. -/
def discoverRects (m : Mask) : List Rect :=
  (componentLabels (finalLabels m)).map fun v =>
    rectOfCells (cellsWithLabel (finalLabels m) (maskWidth m) (maskHeight m) v)

/-- The sort key of the source: `2 * left + top`. -/
def sortKey (x : Rect) : Nat := 2 * x.left + x.top

/-- Order on rectangles induced by the sort key. -/
def rectLE (a b : Rect) : Prop := sortKey a ≤ sortKey b

instance : DecidableRel rectLE := fun a b => Nat.decLe (sortKey a) (sortKey b)

instance : IsTotal Rect rectLE := ⟨fun a b => Nat.le_total (sortKey a) (sortKey b)⟩

instance : IsTrans Rect rectLE := ⟨fun _ _ _ => Nat.le_trans⟩

/-- Source `find_contiguous_rectangles`: label the mask, take each component's
bounding values, and sort by `2 * left + top` (Python `sorted` is stable;
insertion sort with a non-strict key order is the same stable sort). -/
def find_contiguous_rectangles (m : Mask) : List Rect :=
  List.insertionSort rectLE (discoverRects m)

/-- The mask of the end-to-end scenario: 7×7, two disjoint 2×2 true blocks
with corners (0,0)-(1,1) and (5,5)-(6,6). -/
def twoBlocksMask : Mask :=
  [[true, true, false, false, false, false, false],
   [true, true, false, false, false, false, false],
   [false, false, false, false, false, false, false],
   [false, false, false, false, false, false, false],
   [false, false, false, false, false, false, false],
   [false, false, false, false, false, true, true],
   [false, false, false, false, false, true, true]]

/-- A 5×4 mask with a single isolated true cell at row 2, column 3. -/
def singleCellMask : Mask :=
  [[false, false, false, false, false],
   [false, false, false, false, false],
   [false, false, false, true, false],
   [false, false, false, false, false]]

/-- The initial label grid of the two-blocks mask. -/
def tbL0 : LGrid :=
  [[some 0, some 1, none, none, none, none, none],
   [some 7, some 8, none, none, none, none, none],
   [none, none, none, none, none, none, none],
   [none, none, none, none, none, none, none],
   [none, none, none, none, none, none, none],
   [none, none, none, none, none, some 40, some 41],
   [none, none, none, none, none, some 47, some 48]]

/-- The two-blocks label grid after one propagation round. -/
def tbL1 : LGrid :=
  [[some 0, some 0, none, none, none, none, none],
   [some 0, some 1, none, none, none, none, none],
   [none, none, none, none, none, none, none],
   [none, none, none, none, none, none, none],
   [none, none, none, none, none, none, none],
   [none, none, none, none, none, some 40, some 40],
   [none, none, none, none, none, some 40, some 41]]

/-- The two-blocks label grid after two rounds: the fixpoint. -/
def tbL2 : LGrid :=
  [[some 0, some 0, none, none, none, none, none],
   [some 0, some 0, none, none, none, none, none],
   [none, none, none, none, none, none, none],
   [none, none, none, none, none, none, none],
   [none, none, none, none, none, none, none],
   [none, none, none, none, none, some 40, some 40],
   [none, none, none, none, none, some 40, some 40]]

/-- The initial (and fixpoint) label grid of the single-cell mask. -/
def scL0 : LGrid :=
  [[none, none, none, none, none],
   [none, none, none, none, none],
   [none, none, none, some 13, none],
   [none, none, none, none, none]]

/-- Value of one hexadecimal digit (`int(…, 16)` accepts both cases). -/
def hexDigitVal (c : Char) : Option Nat :=
  if '0' ≤ c ∧ c ≤ '9' then some (c.toNat - '0'.toNat)
  else if 'a' ≤ c ∧ c ≤ 'f' then some (c.toNat - 'a'.toNat + 10)
  else if 'A' ≤ c ∧ c ≤ 'F' then some (c.toNat - 'A'.toNat + 10)
  else none

/-- Value of a two-hex-digit slice, `int(hex[i:i+2], 16)`. -/
def hexPair (c1 c2 : Char) : Option Nat :=
  match hexDigitVal c1, hexDigitVal c2 with
  | some u, some v => some (16 * u + v)
  | _, _ => none

/-- The length-check error message of the source. -/
def hexLengthError : String := "Hex color must be 7 characters long incl. #"

/-- Parse the string remaining after `lstrip("#")`: exactly 6 characters
(otherwise the source raises its length `ValueError`), decoded as three
two-digit hex values (a non-hex digit raises `ValueError` inside `int`). -/
def parseHex6 : List Char → Except String (Nat × Nat × Nat)
  | [c1, c2, c3, c4, c5, c6] =>
      match hexPair c1 c2, hexPair c3 c4, hexPair c5 c6 with
      | some v1, some v2, some v3 => Except.ok (v1, v2, v3)
      | _, _, _ => Except.error "invalid literal for int with base 16"
  | _ => Except.error hexLengthError

/-- Source `hex_to_rgb`: `hex.lstrip("#")` (which removes any number
of leading `#` characters, including none), then the length-6 check, then the
three two-digit slices. -/
def hex_to_rgb (s : List Char) : Except String (Nat × Nat × Nat) :=
  parseHex6 (s.dropWhile (fun c => c = '#'))

/-- One step of the element-wise maximum fold over image sizes. -/
def dimStep (acc s : Nat × Nat) : Nat × Nat := (Nat.max acc.1 s.1, Nat.max acc.2 s.2)

/-- Source `max_img_dim`: element-wise maximum of all image pixel sizes, folded from
`[0, 0]` in input order. -/
def maxImgDim (imgs : List (Nat × Nat)) : Nat × Nat := imgs.foldl dimStep (0, 0)

/-- The `auto` page-size scale: `args.dpi / 25.4` px/mm (`25.4 = 127/5`). -/
def mergeScaleAuto (dpi : Nat) : ℚ := (dpi : ℚ) / (127 / 5)

/-- The `auto` page size: `2 * margin + dimension / scale` per axis, mm. -/
def mergePageAuto (imgs : List (Nat × Nat)) (margin : ℚ) (dpi : Nat) : ℚ × ℚ :=
  (2 * margin + ((maxImgDim imgs).1 : ℚ) / mergeScaleAuto dpi,
   2 * margin + ((maxImgDim imgs).2 : ℚ) / mergeScaleAuto dpi)

/-- The fixed-page scale: the larger of the two per-axis ratios of the
largest input dimensions to the margin-reduced page dimensions. -/
def mergeScaleFixed (imgs : List (Nat × Nat)) (page_dim : ℚ × ℚ) (margin : ℚ) : ℚ :=
  max (((maxImgDim imgs).1 : ℚ) / (page_dim.1 - 2 * margin))
    (((maxImgDim imgs).2 : ℚ) / (page_dim.2 - 2 * margin))

/-- Drawn size of one image in mm: `pixel size / img_scale` per axis. -/
def imgDrawnDim (size : Nat × Nat) (img_scale : ℚ) : ℚ × ℚ :=
  ((size.1 : ℚ) / img_scale, (size.2 : ℚ) / img_scale)

/-- Per-image scale selection of the `merge` loop: `if i+1 in args.expand`.
`args.expand` is declared with `nargs="*"` and no default, so a run without
`--expand` leaves it `None` and the membership test raises `TypeError`;
otherwise a listed 1-based position gets the full-page scale and any other
position (in range or not) gets the global scale. -/
def imgScaleFor (size : Nat × Nat) (page_dim : ℚ × ℚ) (iPos : Nat)
    (expand : Option (List Int)) (scale : ℚ) : Except String ℚ :=
  match expand with
  | none => Except.error "TypeError: argument of type NoneType is not iterable"
  | some l =>
      if (iPos : Int) ∈ l then
        Except.ok (max ((size.1 : ℚ) / page_dim.1) ((size.2 : ℚ) / page_dim.2))
      else Except.ok scale

/-- The padded canvas as the spec words it, pointwise: the input grid placed
at offset `(target - size) / 2` per axis, fully transparent fill elsewhere.
Spec-side definition, compared below with the paste-based implementation. -/
def centeredCanvasSpec (img : Grid) (w h tw th y x : Nat) : Pixel :=
  if (th - h) / 2 ≤ y ∧ y < (th - h) / 2 + h ∧ (tw - w) / 2 ≤ x ∧ x < (tw - w) / 2 + w then
    getPx img (y - (th - h) / 2) (x - (tw - w) / 2)
  else transparentPixel

lemma combinePix_self (m : Method) (p : Pixel) : combinePix m p p = p := by
  cases m <;> cases p <;> simp [combinePix]

lemma zipWith_self {α : Type} (f : α → α → α) (h : ∀ x, f x x = x) :
    ∀ l : List α, List.zipWith f l l = l := by
  intro l
  induction l with
  | nil => rfl
  | cons x xs ih => simp [List.zipWith, h, ih]

/-- Claim C7: melding a grid with an exact copy of itself, with either method,
returns the grid unchanged pixel for pixel at the same dimensions. -/
theorem combine_two_self (img : Grid) (m : Method) : combine_two img img m = img := by
  unfold combine_two resize_and_center
  simp only [Nat.max_self, if_pos rfl]
  exact zipWith_self _ (fun row => zipWith_self _ (combinePix_self m) row) img

lemma nonBgRow_eq_nil (ref : Nat × Nat × Nat) (tol : Nat) (r : Nat) (row : List Pixel)
    (h : ∀ p ∈ row, bgPix ref tol p = true) : ∀ c, nonBgRow ref tol r row c = [] := by
  induction row with
  | nil => intro c; rfl
  | cons p rest ih =>
      intro c
      have hp : bgPix ref tol p = true := h p (List.mem_cons_self p rest)
      simp only [nonBgRow, hp, if_pos]
      exact (ih fun q hq => h q (List.mem_cons_of_mem p hq)) (c + 1)

lemma nonBgCoords_eq_nil (ref : Nat × Nat × Nat) (tol : Nat) (g : Grid)
    (h : ∀ row ∈ g, ∀ p ∈ row, bgPix ref tol p = true) :
    ∀ r, nonBgCoords ref tol g r = [] := by
  induction g with
  | nil => intro r; rfl
  | cons row rest ih =>
      intro r
      simp only [nonBgCoords]
      rw [nonBgRow_eq_nil ref tol r row (h row (List.mem_cons_self row rest)) 0,
        (ih fun q hq => h q (List.mem_cons_of_mem row hq)) (r + 1)]
      rfl

lemma autocrop_of_allBg (g : Grid) (ref : Nat × Nat × Nat) (tol : Nat)
    (h : ∀ row ∈ g, ∀ p ∈ row, bgPix ref tol p = true) : autocrop g ref tol = g := by
  unfold autocrop
  rw [nonBgCoords_eq_nil ref tol g h 0]

/-- Claim C3: if every pixel of the sub-grid is within tolerance of the
reference color (no non-background pixel exists), the autocrop branch of
`crop` returns the input sub-grid unchanged. -/
theorem autocrop_uniform_unchanged (g : Grid) (ref : Nat × Nat × Nat) (tol : Nat)
    (h : ∀ row ∈ g, ∀ p ∈ row, bgPix ref tol p = true) : autocrop g ref tol = g :=
  autocrop_of_allBg g ref tol h

/-- Witness for C3 at a concrete sub-grid, reference color and tolerance. -/
theorem autocrop_uniform_unchanged_witness :
    autocrop [[⟨10, 10, 10, 255⟩, ⟨12, 8, 10, 255⟩]] (12, 10, 10) 10 =
      [[⟨10, 10, 10, 255⟩, ⟨12, 8, 10, 255⟩]] :=
  autocrop_uniform_unchanged [[⟨10, 10, 10, 255⟩, ⟨12, 8, 10, 255⟩]] (12, 10, 10) 10
    (by decide)

/-- Claim C4: with tolerance 100 % the absolute threshold is 255, every
per-channel difference of 8-bit samples is at most 255, so every pixel is
background and `crop` returns the sub-grid unchanged. -/
theorem autocrop_tolerance_100 (g : Grid) (ref : Nat × Nat × Nat)
    (hg : ∀ row ∈ g, ∀ p ∈ row, p.r ≤ 255 ∧ p.g ≤ 255 ∧ p.b ≤ 255)
    (href : ref.1 ≤ 255 ∧ ref.2.1 ≤ 255 ∧ ref.2.2 ≤ 255) :
    autocrop g ref 100 = g := by
  apply autocrop_of_allBg
  intro row hrow p hp
  obtain ⟨hr, hgc, hb⟩ := hg row hrow p hp
  obtain ⟨h1, h2, h3⟩ := href
  simp only [bgPix, chanDiff, Bool.and_eq_true, decide_eq_true_eq]
  refine ⟨⟨?_, ?_⟩, ?_⟩ <;> omega

/-- Witness for C4 at a concrete valid sub-grid and reference color. -/
theorem autocrop_tolerance_100_witness :
    autocrop [[⟨0, 200, 10, 3⟩], [⟨255, 0, 0, 9⟩]] (255, 255, 255) 100 =
      [[⟨0, 200, 10, 3⟩], [⟨255, 0, 0, 9⟩]] :=
  autocrop_tolerance_100 [[⟨0, 200, 10, 3⟩], [⟨255, 0, 0, 9⟩]] (255, 255, 255)
    (by decide) (by decide)

lemma iterLabels_of_fix (m : Mask) (L : LGrid) (h : stepLabels m L = L) :
    ∀ n, iterLabels m n L = L := by
  intro n
  induction n with
  | zero => rfl
  | succ k ih => rw [iterLabels, h, ih]

/-- Claim C1 (code bug): the source omits the `+ 1` on the max column/row, so
the returned rectangles are inclusive, not exclusive, upper bounds.  The
two-blocks mask yields `[[0,0,1,1],[5,5,6,6]]` instead of the claimed
`[[0,0,2,2],[5,5,7,7]]`, and a single isolated true cell yields a rectangle
with `right = left` and `bottom = top` instead of `left + 1` / `top + 1`. -/
theorem find_contiguous_rectangles_inclusive_bounds :
    find_contiguous_rectangles twoBlocksMask = [⟨0, 0, 1, 1⟩, ⟨5, 5, 6, 6⟩] ∧
    find_contiguous_rectangles singleCellMask = [⟨3, 2, 3, 2⟩] := by
  have h1 : stepLabels twoBlocksMask tbL0 = tbL1 := by decide
  have h2 : stepLabels twoBlocksMask tbL1 = tbL2 := by decide
  have h3 : stepLabels twoBlocksMask tbL2 = tbL2 := by decide
  have htb : finalLabels twoBlocksMask = tbL2 := by
    show iterLabels twoBlocksMask 49 tbL0 = tbL2
    calc iterLabels twoBlocksMask 49 tbL0
        = iterLabels twoBlocksMask 48 (stepLabels twoBlocksMask tbL0) := rfl
      _ = iterLabels twoBlocksMask 48 tbL1 := by rw [h1]
      _ = iterLabels twoBlocksMask 47 (stepLabels twoBlocksMask tbL1) := rfl
      _ = iterLabels twoBlocksMask 47 tbL2 := by rw [h2]
      _ = tbL2 := iterLabels_of_fix _ _ h3 47
  have hs : stepLabels singleCellMask scL0 = scL0 := by decide
  have hsc : finalLabels singleCellMask = scL0 := by
    show iterLabels singleCellMask 20 scL0 = scL0
    exact iterLabels_of_fix _ _ hs 20
  constructor
  · simp only [find_contiguous_rectangles, discoverRects, htb]
    decide
  · simp only [find_contiguous_rectangles, discoverRects, hsc]
    decide

lemma filter_orderedInsert (a : Rect) (l : List Rect) (k : Nat) :
    (List.orderedInsert rectLE a l).filter (fun x => sortKey x == k) =
      if sortKey a == k then a :: l.filter (fun x => sortKey x == k)
      else l.filter (fun x => sortKey x == k) := by
  induction l with
  | nil => simp [List.orderedInsert, List.filter_cons]
  | cons b t ih =>
      by_cases hab : rectLE a b
      · cases hak : sortKey a == k <;>
          simp [List.orderedInsert, if_pos hab, List.filter_cons, hak]
      · have hlt : sortKey b < sortKey a := Nat.lt_of_not_le hab
        cases hbk : sortKey b == k
        · cases hak : sortKey a == k <;>
            simp [List.orderedInsert, if_neg hab, List.filter_cons, hak, hbk, ih]
        · have hak : (sortKey a == k) = false := by
            rw [beq_iff_eq] at hbk
            rw [beq_eq_false_iff_ne]
            omega
          simp [List.orderedInsert, if_neg hab, List.filter_cons, hak, hbk, ih]

lemma filter_insertionSort (l : List Rect) (k : Nat) :
    (List.insertionSort rectLE l).filter (fun x => sortKey x == k) =
      l.filter (fun x => sortKey x == k) := by
  induction l with
  | nil => rfl
  | cons b t ih =>
      simp only [List.insertionSort, filter_orderedInsert, ih, List.filter]
      by_cases hbk : sortKey b == k <;> simp [hbk]

/-- Claim C2: for every mask, the rectangles returned by
`find_contiguous_rectangles` are sorted by ascending `2 * left + top`, and
rectangles with equal keys keep their component-discovery order (the sort is
stable: for every key value, the sub-sequence with that key is the same
before and after sorting). -/
theorem find_contiguous_rectangles_sorted_stable (m : Mask) :
    List.Sorted rectLE (find_contiguous_rectangles m) ∧
    ∀ k, (find_contiguous_rectangles m).filter (fun x => sortKey x == k) =
      (discoverRects m).filter (fun x => sortKey x == k) :=
  ⟨List.sorted_insertionSort rectLE (discoverRects m),
    fun k => filter_insertionSort (discoverRects m) k⟩

lemma parseHex6_of_length_ne (t : List Char) (h : t.length ≠ 6) :
    parseHex6 t = Except.error hexLengthError :=
  match t, h with
  | [], _ => rfl
  | [_], _ => rfl
  | [_, _], _ => rfl
  | [_, _, _], _ => rfl
  | [_, _, _, _], _ => rfl
  | [_, _, _, _, _], _ => rfl
  | [_, _, _, _, _, _], h => absurd rfl h
  | _ :: _ :: _ :: _ :: _ :: _ :: _ :: _, _ => rfl

lemma dropWhile_hash_replicate (n : Nat) (s : List Char) :
    (List.replicate n '#' ++ s).dropWhile (fun c => c = '#') =
      s.dropWhile (fun c => c = '#') := by
  induction n with
  | zero => rfl
  | succ k ih =>
      rw [List.replicate_succ, List.cons_append, List.dropWhile_cons_of_pos (by decide), ih]

/-- Claim C5 (counterexample): `hex_to_rgb` accepts a 6-hex-digit string with
no `#` prefix at all, so it does not accept exactly the `#`-prefixed ones. -/
theorem hex_to_rgb_accepts_unprefixed :
    hex_to_rgb "abcdef".toList = Except.ok (171, 205, 239) := rfl

/-- Claim C5 (amended): `hex_to_rgb` strips all leading `#` characters (the
prefix is optional and may repeat), raises the length `ValueError` whenever
the remaining part does not have exactly 6 characters, and returns the three
decoded channel values whenever the remaining part is 6 hex digits. -/
theorem hex_to_rgb_spec (s : List Char) (n : Nat) :
    hex_to_rgb (List.replicate n '#' ++ s) = hex_to_rgb s ∧
    ((s.dropWhile (fun c => c = '#')).length ≠ 6 →
      hex_to_rgb s = Except.error hexLengthError) ∧
    (∀ c1 c2 c3 c4 c5 c6 v1 v2 v3,
      s.dropWhile (fun c => c = '#') = [c1, c2, c3, c4, c5, c6] →
      hexPair c1 c2 = some v1 → hexPair c3 c4 = some v2 → hexPair c5 c6 = some v3 →
      hex_to_rgb s = Except.ok (v1, v2, v3)) := by
  refine ⟨?_, ?_, ?_⟩
  · unfold hex_to_rgb
    rw [dropWhile_hash_replicate]
  · intro hlen
    unfold hex_to_rgb
    exact parseHex6_of_length_ne _ hlen
  · intro c1 c2 c3 c4 c5 c6 v1 v2 v3 ht h1 h2 h3
    unfold hex_to_rgb
    rw [ht]
    simp [parseHex6, h1, h2, h3]

/-- Witness for C5 at concrete strings: double prefix stripped, short string
rejected with the length error, six digits decoded. -/
theorem hex_to_rgb_spec_witness :
    hex_to_rgb (List.replicate 2 '#' ++ "0a0b0c".toList) = hex_to_rgb "0a0b0c".toList ∧
    hex_to_rgb "#abc".toList = Except.error hexLengthError ∧
    hex_to_rgb "#123456".toList = Except.ok (18, 52, 86) :=
  ⟨(hex_to_rgb_spec "0a0b0c".toList 2).1,
   (hex_to_rgb_spec "#abc".toList 0).2.1 (by decide),
   (hex_to_rgb_spec "#123456".toList 0).2.2 '1' '2' '3' '4' '5' '6' 18 52 86
     (by decide) (by decide) (by decide) (by decide)⟩

lemma foldl_dimStep (t : List (Nat × Nat)) : ∀ a : Nat × Nat,
    t.foldl dimStep a =
      (Nat.max a.1 (t.foldl dimStep (0, 0)).1, Nat.max a.2 (t.foldl dimStep (0, 0)).2) := by
  induction t with
  | nil => intro a; cases a; simp
  | cons d t ih =>
      intro a
      rw [List.foldl_cons, List.foldl_cons, ih (dimStep a d), ih (dimStep (0, 0) d)]
      simp [dimStep, Nat.max_assoc]

lemma maxImgDim_cons (d : Nat × Nat) (t : List (Nat × Nat)) :
    maxImgDim (d :: t) =
      (Nat.max d.1 (maxImgDim t).1, Nat.max d.2 (maxImgDim t).2) := by
  unfold maxImgDim
  rw [List.foldl_cons, foldl_dimStep t (dimStep (0, 0) d)]
  simp [dimStep]

lemma le_maxImgDim (imgs : List (Nat × Nat)) (d : Nat × Nat) (hd : d ∈ imgs) :
    d.1 ≤ (maxImgDim imgs).1 ∧ d.2 ≤ (maxImgDim imgs).2 := by
  induction imgs with
  | nil => cases hd
  | cons e t ih =>
      rw [maxImgDim_cons]
      rcases List.mem_cons.mp hd with rfl | hmem
      · exact ⟨Nat.le_max_left _ _, Nat.le_max_left _ _⟩
      · exact ⟨le_trans (ih hmem).1 (Nat.le_max_right _ _),
          le_trans (ih hmem).2 (Nat.le_max_right _ _)⟩

lemma max_div_of_pos (a b : ℚ) {p : ℚ} (hp : 0 < p) :
    max a b / p = max (a / p) (b / p) := by
  rcases le_total a b with h | h
  · rw [max_eq_right h, max_eq_right ((div_le_div_iff_of_pos_right hp).mpr h)]
  · rw [max_eq_left h, max_eq_left ((div_le_div_iff_of_pos_right hp).mpr h)]

/-- Claim C8: in fixed-page mode the global scale equals the maximum over all
images and both axes of `pixel dimension / (page dimension - 2 * margin)`,
and every image drawn at the global scale fits within the margin-reduced
page on both axes. -/
theorem merge_fixed_scale_fits (imgs : List (Nat × Nat)) (page_dim : ℚ × ℚ) (margin : ℚ)
    (hp1 : 0 < page_dim.1 - 2 * margin) (hp2 : 0 < page_dim.2 - 2 * margin)
    (hs : 0 < mergeScaleFixed imgs page_dim margin) :
    mergeScaleFixed imgs page_dim margin =
      imgs.foldr (fun d acc => max (max ((d.1 : ℚ) / (page_dim.1 - 2 * margin))
        ((d.2 : ℚ) / (page_dim.2 - 2 * margin))) acc) 0 ∧
    ∀ d ∈ imgs,
      (imgDrawnDim d (mergeScaleFixed imgs page_dim margin)).1 ≤ page_dim.1 - 2 * margin ∧
      (imgDrawnDim d (mergeScaleFixed imgs page_dim margin)).2 ≤ page_dim.2 - 2 * margin := by
  constructor
  · clear hs
    induction imgs with
    | nil => simp [mergeScaleFixed, maxImgDim]
    | cons d t ih =>
        rw [List.foldr_cons, ← ih]
        unfold mergeScaleFixed
        rw [maxImgDim_cons]
        push_cast [Nat.cast_max]
        rw [max_div_of_pos _ _ hp1, max_div_of_pos _ _ hp2, max_max_max_comm]
  · intro d hd
    obtain ⟨h1, h2⟩ := le_maxImgDim imgs d hd
    constructor
    · have hle : (d.1 : ℚ) / (page_dim.1 - 2 * margin) ≤ mergeScaleFixed imgs page_dim margin :=
        le_trans ((div_le_div_iff_of_pos_right hp1).mpr (by exact_mod_cast h1))
          (le_max_left _ _)
      have hineq : (d.1 : ℚ) ≤ mergeScaleFixed imgs page_dim margin * (page_dim.1 - 2 * margin) :=
        (div_le_iff₀ hp1).mp hle
      exact (div_le_iff₀ hs).mpr (by linarith)
    · have hle : (d.2 : ℚ) / (page_dim.2 - 2 * margin) ≤ mergeScaleFixed imgs page_dim margin :=
        le_trans ((div_le_div_iff_of_pos_right hp2).mpr (by exact_mod_cast h2))
          (le_max_right _ _)
      have hineq : (d.2 : ℚ) ≤ mergeScaleFixed imgs page_dim margin * (page_dim.2 - 2 * margin) :=
        (div_le_iff₀ hp2).mp hle
      exact (div_le_iff₀ hs).mpr (by linarith)

/-- Witness for C8: one 100×200 px image on a 210×297 mm page, 20 mm margin. -/
theorem merge_fixed_scale_fits_witness :
    mergeScaleFixed [(100, 200)] (210, 297) 20 =
      [((100 : Nat), (200 : Nat))].foldr (fun d acc => max (max ((d.1 : ℚ) / (210 - 2 * 20))
        ((d.2 : ℚ) / (297 - 2 * 20))) acc) 0 ∧
    (imgDrawnDim (100, 200) (mergeScaleFixed [(100, 200)] (210, 297) 20)).1 ≤ 210 - 2 * 20 ∧
    (imgDrawnDim (100, 200) (mergeScaleFixed [(100, 200)] (210, 297) 20)).2 ≤ 297 - 2 * 20 :=
  ⟨(merge_fixed_scale_fits [(100, 200)] (210, 297) 20 (by norm_num) (by norm_num)
      (by norm_num [mergeScaleFixed, maxImgDim, dimStep])).1,
   (merge_fixed_scale_fits [(100, 200)] (210, 297) 20 (by norm_num) (by norm_num)
      (by norm_num [mergeScaleFixed, maxImgDim, dimStep])).2 (100, 200) (by simp)⟩

/-- Claim C9: in `auto` mode the scale is `dpi / 25.4` px/mm and the page
size is the element-wise largest input size at that scale plus margins, so
page dimension minus `2 * margin`, times the scale, round-trips exactly to
the largest input pixel dimension on each axis. -/
theorem merge_auto_roundtrip (imgs : List (Nat × Nat)) (margin : ℚ) (dpi : Nat)
    (hdpi : 0 < dpi) :
    ((mergePageAuto imgs margin dpi).1 - 2 * margin) * mergeScaleAuto dpi =
      ((maxImgDim imgs).1 : ℚ) ∧
    ((mergePageAuto imgs margin dpi).2 - 2 * margin) * mergeScaleAuto dpi =
      ((maxImgDim imgs).2 : ℚ) := by
  have hq : (0 : ℚ) < dpi := by exact_mod_cast hdpi
  have hs : mergeScaleAuto dpi ≠ 0 := by
    unfold mergeScaleAuto
    exact div_ne_zero hq.ne' (by norm_num)
  unfold mergePageAuto
  constructor <;>
    · rw [add_sub_cancel_left]
      exact div_mul_cancel₀ _ hs

/-- Witness for C9: one 72×144 px image at 72 dpi with a 10 mm margin. -/
theorem merge_auto_roundtrip_witness :
    ((mergePageAuto [(72, 144)] 10 72).1 - 2 * 10) * mergeScaleAuto 72 =
      ((maxImgDim [(72, 144)]).1 : ℚ) ∧
    ((mergePageAuto [(72, 144)] 10 72).2 - 2 * 10) * mergeScaleAuto 72 =
      ((maxImgDim [(72, 144)]).2 : ℚ) :=
  merge_auto_roundtrip [(72, 144)] 10 72 (by decide)

/-- Claim C10 (code bug): a `merge` run with no `--expand` supplied leaves
`args.expand = None`, and the membership test `i+1 in args.expand` raises
`TypeError` instead of placing the image at the global scale. -/
theorem merge_expand_none_raises :
    imgScaleFor (100, 150) (210, 297) 1 none 2 =
      Except.error "TypeError: argument of type NoneType is not iterable" := rfl

lemma pasteRow_length : ∀ (row irow : List Pixel) (offX : Nat),
    (pasteRow row irow offX).length = row.length
  | [], _, _ => rfl
  | _ :: rest, irow, offX + 1 => by
      simp [pasteRow, pasteRow_length rest irow offX]
  | _ :: _, [], 0 => rfl
  | _ :: rest, _ :: qrest, 0 => by
      simp [pasteRow, pasteRow_length rest qrest 0]

lemma pasteRow_getD (d : Pixel) : ∀ (row irow : List Pixel) (offX x : Nat),
    (pasteRow row irow offX).getD x d =
      if offX ≤ x ∧ x < offX + irow.length ∧ x < row.length then irow.getD (x - offX) d
      else row.getD x d
  | [], irow, offX, x => by
      rw [if_neg (by simp)]
      simp [pasteRow]
  | row :: rest, irow, offX + 1, 0 => by
      rw [if_neg (by omega)]
      simp [pasteRow]
  | p :: rest, irow, offX + 1, x + 1 => by
      have ih := pasteRow_getD d rest irow offX x
      simp only [pasteRow, List.getD_cons_succ, List.length_cons]
      rw [ih]
      by_cases h : offX ≤ x ∧ x < offX + irow.length ∧ x < rest.length
      · rw [if_pos h, if_pos (by omega), Nat.succ_sub_succ]
      · rw [if_neg h, if_neg (by omega)]
  | p :: rest, [], 0, x => by
      rw [if_neg (by simp)]
      simp [pasteRow]
  | p :: rest, q :: qrest, 0, 0 => by
      rw [if_pos (by simp)]
      simp [pasteRow]
  | p :: rest, q :: qrest, 0, x + 1 => by
      have ih := pasteRow_getD d rest qrest 0 x
      simp only [pasteRow, List.getD_cons_succ, List.length_cons]
      rw [ih]
      by_cases h : 0 ≤ x ∧ x < 0 + qrest.length ∧ x < rest.length
      · rw [if_pos h, if_pos (by omega)]
        simp
      · rw [if_neg h, if_neg (by omega)]

lemma pasteRows_length : ∀ (canvas img : Grid) (offX offY : Nat),
    (pasteRows canvas img offX offY).length = canvas.length
  | [], _, _, _ => rfl
  | _ :: rest, img, offX, offY + 1 => by
      simp [pasteRows, pasteRows_length rest img offX offY]
  | _ :: _, [], _, 0 => rfl
  | _ :: rest, _ :: irest, offX, 0 => by
      simp [pasteRows, pasteRows_length rest irest offX 0]

lemma pasteRows_getD : ∀ (canvas img : Grid) (offX offY y : Nat),
    (pasteRows canvas img offX offY).getD y [] =
      if offY ≤ y ∧ y < offY + img.length ∧ y < canvas.length then
        pasteRow (canvas.getD y []) (img.getD (y - offY) []) offX
      else canvas.getD y []
  | [], img, offX, offY, y => by
      rw [if_neg (by simp)]
      simp [pasteRows]
  | row :: rest, img, offX, offY + 1, 0 => by
      rw [if_neg (by omega)]
      simp [pasteRows]
  | row :: rest, img, offX, offY + 1, y + 1 => by
      have ih := pasteRows_getD rest img offX offY y
      simp only [pasteRows, List.getD_cons_succ, List.length_cons]
      rw [ih]
      by_cases h : offY ≤ y ∧ y < offY + img.length ∧ y < rest.length
      · rw [if_pos h, if_pos (by omega), Nat.succ_sub_succ]
      · rw [if_neg h, if_neg (by omega)]
  | row :: rest, [], offX, 0, y => by
      rw [if_neg (by simp)]
      simp [pasteRows]
  | row :: rest, irow :: irest, offX, 0, 0 => by
      rw [if_pos (by simp)]
      simp [pasteRows]
  | row :: rest, irow :: irest, offX, 0, y + 1 => by
      have ih := pasteRows_getD rest irest offX 0 y
      simp only [pasteRows, List.getD_cons_succ, List.length_cons]
      rw [ih]
      by_cases h : 0 ≤ y ∧ y < 0 + irest.length ∧ y < rest.length
      · rw [if_pos h, if_pos (by omega)]
        simp
      · rw [if_neg h, if_neg (by omega)]

lemma pasteRows_rows_length (w : Nat) : ∀ (canvas img : Grid) (offX offY : Nat),
    (∀ r ∈ canvas, r.length = w) →
    ∀ r ∈ pasteRows canvas img offX offY, r.length = w
  | [], _, _, _, _, r, hr => absurd hr (by simp [pasteRows])
  | row :: rest, img, offX, offY + 1, hc, r, hr => by
      simp only [pasteRows, List.mem_cons] at hr
      rcases hr with rfl | hmem
      · exact hc r (List.mem_cons_self r rest)
      · exact pasteRows_rows_length w rest img offX offY
          (fun s hs => hc s (List.mem_cons_of_mem row hs)) r hmem
  | row :: rest, [], offX, 0, hc, r, hr => hc r hr
  | row :: rest, irow :: irest, offX, 0, hc, r, hr => by
      simp only [pasteRows, List.mem_cons] at hr
      rcases hr with rfl | hmem
      · rw [pasteRow_length]
        exact hc row (List.mem_cons_self row rest)
      · exact pasteRows_rows_length w rest irest offX 0
          (fun s hs => hc s (List.mem_cons_of_mem row hs)) r hmem

lemma WF_blank (w h : Nat) : WF (blank w h) w h :=
  ⟨List.length_replicate h (List.replicate w transparentPixel),
   fun r hr => by
     rw [List.eq_of_mem_replicate hr]
     exact List.length_replicate w transparentPixel⟩

lemma getD_replicate_of_lt {α : Type} (a d : α) {n i : Nat} (h : i < n) :
    (List.replicate n a).getD i d = a := by
  rw [List.getD_eq_getElem _ _ (by simpa using h), List.getElem_replicate]

lemma gridWidth_eq (img : Grid) (w h : Nat) (hwf : WF img w h) (hh : 0 < h) :
    gridWidth img = w := by
  cases img with
  | nil =>
      have : (0 : Nat) = h := hwf.1
      omega
  | cons r t => exact hwf.2 r (List.mem_cons_self r t)

lemma WF_getD_length (g : Grid) (w h : Nat) (hwf : WF g w h) (y : Nat) (hy : y < h) :
    (g.getD y []).length = w := by
  have hy' : y < g.length := by rw [hwf.1]; exact hy
  rw [List.getD_eq_getElem _ _ hy']
  exact hwf.2 _ (List.getElem_mem hy')

lemma WF_resize (img : Grid) (w h tw th : Nat) (hwf : WF img w h) (hh : 0 < h) :
    WF (resize_and_center img tw th) tw th := by
  unfold resize_and_center
  by_cases hsz : (gridWidth img, gridHeight img) = (tw, th)
  · rw [if_pos hsz]
    have e1 : gridWidth img = tw := congrArg Prod.fst hsz
    have e2 : gridHeight img = th := congrArg Prod.snd hsz
    have hgw : gridWidth img = w := gridWidth_eq img w h hwf hh
    refine ⟨e2, fun r hr => ?_⟩
    rw [hwf.2 r hr, ← hgw, e1]
  · rw [if_neg hsz]
    exact ⟨by rw [pasteRows_length, (WF_blank tw th).1],
      pasteRows_rows_length tw (blank tw th) img _ _ (WF_blank tw th).2⟩

lemma getPx_resize (img : Grid) (w h tw th : Nat) (hwf : WF img w h) (hh : 0 < h)
    (hw : w ≤ tw) (hht : h ≤ th) (y x : Nat) (hy : y < th) (hx : x < tw) :
    getPx (resize_and_center img tw th) y x = centeredCanvasSpec img w h tw th y x := by
  have hgw : gridWidth img = w := gridWidth_eq img w h hwf hh
  have hgh : gridHeight img = h := hwf.1
  have hil : img.length = h := hwf.1
  unfold resize_and_center centeredCanvasSpec
  by_cases hsz : (gridWidth img, gridHeight img) = (tw, th)
  · rw [if_pos hsz]
    have e1 : w = tw := by rw [← hgw]; exact congrArg Prod.fst hsz
    have e2 : h = th := by rw [← hgh]; exact congrArg Prod.snd hsz
    rw [if_pos (by omega)]
    congr 1 <;> omega
  · rw [if_neg hsz]
    have hclen : (blank tw th).length = th := (WF_blank tw th).1
    have hcrow : (blank tw th).getD y [] = List.replicate tw transparentPixel :=
      getD_replicate_of_lt _ _ hy
    show ((pasteRows (blank tw th) img ((tw - gridWidth img) / 2)
        ((th - gridHeight img) / 2)).getD y []).getD x transparentPixel = _
    rw [pasteRows_getD, hil, hclen, hgw, hgh]
    by_cases hy' : (th - h) / 2 ≤ y ∧ y < (th - h) / 2 + h ∧ y < th
    · rw [if_pos hy', hcrow, pasteRow_getD]
      have hrowlen : (img.getD (y - (th - h) / 2) []).length = w :=
        WF_getD_length img w h hwf _ (by omega)
      rw [hrowlen, List.length_replicate]
      by_cases hx' : (tw - w) / 2 ≤ x ∧ x < (tw - w) / 2 + w ∧ x < tw
      · rw [if_pos hx', if_pos (by omega)]
        rfl
      · rw [if_neg hx', if_neg (by omega)]
        exact getD_replicate_of_lt _ _ hx
    · rw [if_neg hy', hcrow, if_neg (by omega)]
      exact getD_replicate_of_lt _ _ hx

lemma getD_zipWith {α β γ : Type} (f : α → β → γ) :
    ∀ (l1 : List α) (l2 : List β) (i : Nat) (d1 : α) (d2 : β) (d3 : γ),
    i < l1.length → i < l2.length →
    (List.zipWith f l1 l2).getD i d3 = f (l1.getD i d1) (l2.getD i d2)
  | [], _, _, _, _, _, h1, _ => absurd h1 (by simp)
  | _ :: _, [], _, _, _, _, _, h2 => absurd h2 (by simp)
  | a :: l1, b :: l2, 0, d1, d2, d3, _, _ => rfl
  | a :: l1, b :: l2, i + 1, d1, d2, d3, h1, h2 => by
      simp only [List.zipWith_cons_cons, List.getD_cons_succ]
      exact getD_zipWith f l1 l2 i d1 d2 d3 (by simpa using h1) (by simpa using h2)

lemma zipWith_rows_length (m : Method) (w : Nat) : ∀ (g1 g2 : Grid),
    (∀ r ∈ g1, r.length = w) → (∀ r ∈ g2, r.length = w) →
    ∀ row ∈ List.zipWith (List.zipWith (combinePix m)) g1 g2, row.length = w
  | [], _, _, _, row, hrow => absurd hrow (by simp)
  | _ :: _, [], _, _, row, hrow => absurd hrow (by simp)
  | r1 :: t1, r2 :: t2, h1, h2, row, hrow => by
      simp only [List.zipWith_cons_cons, List.mem_cons] at hrow
      rcases hrow with rfl | hmem
      · rw [List.length_zipWith, h1 r1 (List.mem_cons_self r1 t1),
          h2 r2 (List.mem_cons_self r2 t2), Nat.min_self]
      · exact zipWith_rows_length m w t1 t2
          (fun s hs => h1 s (List.mem_cons_of_mem r1 hs))
          (fun s hs => h2 s (List.mem_cons_of_mem r2 hs)) row hmem

lemma WF_zipWith (m : Method) (g1 g2 : Grid) (w h : Nat)
    (h1 : WF g1 w h) (h2 : WF g2 w h) :
    WF (List.zipWith (List.zipWith (combinePix m)) g1 g2) w h :=
  ⟨by rw [List.length_zipWith, h1.1, h2.1, Nat.min_self],
   zipWith_rows_length m w g1 g2 h1.2 h2.2⟩

/-- Claim C6: one meld step produces a grid sized to the element-wise maximum
of the two inputs' dimensions, and each of its pixels is the per-channel
minimum (or maximum, by mode) of the two canvases obtained by centering each
input at offset `(canvas - size) / 2` per axis over fully transparent
padding. -/
theorem combine_two_spec (img1 img2 : Grid) (m : Method) (w1 h1 w2 h2 : Nat)
    (hwf1 : WF img1 w1 h1) (hwf2 : WF img2 w2 h2) (hh1 : 0 < h1) (hh2 : 0 < h2) :
    WF (combine_two img1 img2 m) (Nat.max w1 w2) (Nat.max h1 h2) ∧
    ∀ y x, y < Nat.max h1 h2 → x < Nat.max w1 w2 →
      getPx (combine_two img1 img2 m) y x =
        combinePix m
          (centeredCanvasSpec img1 w1 h1 (Nat.max w1 w2) (Nat.max h1 h2) y x)
          (centeredCanvasSpec img2 w2 h2 (Nat.max w1 w2) (Nat.max h1 h2) y x) := by
  have hgw1 : gridWidth img1 = w1 := gridWidth_eq img1 w1 h1 hwf1 hh1
  have hgw2 : gridWidth img2 = w2 := gridWidth_eq img2 w2 h2 hwf2 hh2
  have hgh1 : gridHeight img1 = h1 := hwf1.1
  have hgh2 : gridHeight img2 = h2 := hwf2.1
  have hr1 : WF (resize_and_center img1 (Nat.max w1 w2) (Nat.max h1 h2))
      (Nat.max w1 w2) (Nat.max h1 h2) :=
    WF_resize img1 w1 h1 _ _ hwf1 hh1
  have hr2 : WF (resize_and_center img2 (Nat.max w1 w2) (Nat.max h1 h2))
      (Nat.max w1 w2) (Nat.max h1 h2) :=
    WF_resize img2 w2 h2 _ _ hwf2 hh2
  have hcmb : combine_two img1 img2 m =
      List.zipWith (List.zipWith (combinePix m))
        (resize_and_center img1 (Nat.max w1 w2) (Nat.max h1 h2))
        (resize_and_center img2 (Nat.max w1 w2) (Nat.max h1 h2)) := by
    unfold combine_two
    rw [hgw1, hgw2, hgh1, hgh2]
  constructor
  · rw [hcmb]
    exact WF_zipWith m _ _ _ _ hr1 hr2
  · intro y x hy hx
    rw [hcmb]
    show (List.zipWith _ _ _ |>.getD y []).getD x transparentPixel = _
    rw [getD_zipWith (List.zipWith (combinePix m)) _ _ y [] [] []
        (by rw [hr1.1]; exact hy) (by rw [hr2.1]; exact hy),
      getD_zipWith (combinePix m) _ _ x transparentPixel transparentPixel transparentPixel
        (by rw [WF_getD_length _ _ _ hr1 y hy]; exact hx)
        (by rw [WF_getD_length _ _ _ hr2 y hy]; exact hx)]
    have e1 := getPx_resize img1 w1 h1 (Nat.max w1 w2) (Nat.max h1 h2) hwf1 hh1
      (Nat.le_max_left w1 w2) (Nat.le_max_left h1 h2) y x hy hx
    have e2 := getPx_resize img2 w2 h2 (Nat.max w1 w2) (Nat.max h1 h2) hwf2 hh2
      (Nat.le_max_right w1 w2) (Nat.le_max_right h1 h2) y x hy hx
    unfold getPx at e1 e2
    rw [e1, e2]

/-- Witness for C6: a 2×1 and a 1×2 image melded with `min`, evaluated at the
corner and the center of the 2×2 result. -/
theorem combine_two_spec_witness :
    WF (combine_two [[⟨9, 8, 7, 6⟩, ⟨1, 2, 3, 4⟩]]
      [[⟨5, 5, 5, 5⟩], [⟨0, 1, 0, 1⟩]] Method.min) 2 2 ∧
    getPx (combine_two [[⟨9, 8, 7, 6⟩, ⟨1, 2, 3, 4⟩]]
        [[⟨5, 5, 5, 5⟩], [⟨0, 1, 0, 1⟩]] Method.min) 0 0 =
      combinePix Method.min
        (centeredCanvasSpec [[⟨9, 8, 7, 6⟩, ⟨1, 2, 3, 4⟩]] 2 1 2 2 0 0)
        (centeredCanvasSpec [[⟨5, 5, 5, 5⟩], [⟨0, 1, 0, 1⟩]] 1 2 2 2 0 0) ∧
    getPx (combine_two [[⟨9, 8, 7, 6⟩, ⟨1, 2, 3, 4⟩]]
        [[⟨5, 5, 5, 5⟩], [⟨0, 1, 0, 1⟩]] Method.min) 1 1 =
      combinePix Method.min
        (centeredCanvasSpec [[⟨9, 8, 7, 6⟩, ⟨1, 2, 3, 4⟩]] 2 1 2 2 1 1)
        (centeredCanvasSpec [[⟨5, 5, 5, 5⟩], [⟨0, 1, 0, 1⟩]] 1 2 2 2 1 1) :=
  ⟨(combine_two_spec [[⟨9, 8, 7, 6⟩, ⟨1, 2, 3, 4⟩]] [[⟨5, 5, 5, 5⟩], [⟨0, 1, 0, 1⟩]]
      Method.min 2 1 1 2 (by decide) (by decide) (by decide) (by decide)).1,
   (combine_two_spec [[⟨9, 8, 7, 6⟩, ⟨1, 2, 3, 4⟩]] [[⟨5, 5, 5, 5⟩], [⟨0, 1, 0, 1⟩]]
      Method.min 2 1 1 2 (by decide) (by decide) (by decide) (by decide)).2 0 0
      (by decide) (by decide),
   (combine_two_spec [[⟨9, 8, 7, 6⟩, ⟨1, 2, 3, 4⟩]] [[⟨5, 5, 5, 5⟩], [⟨0, 1, 0, 1⟩]]
      Method.min 2 1 1 2 (by decide) (by decide) (by decide) (by decide)).2 1 1
      (by decide) (by decide)⟩

end Snipbook
